import Mathlib

/-!
Verification of the secure binary resolution and execution layer of
mcp-server-apple-events.

The development shallowly embeds the TypeScript sources:

* src/utils/cliExecutor.ts        : bufferToString, parseCliOutput, runCli,
                                    executeCli.
* src/utils/permissionPrompt.ts   : triggerPermissionPrompt, hasBeenPrompted
                                    (the revision taking a force flag, which
                                    marks the domain before awaiting the probe).
* src/utils/helpers.ts            : addOptionalArg.
* src/utils/binaryValidator.ts    : the implementation file is absent from the
                                    source tree (only binaryValidator.test.ts
                                    is present), so validateBinaryPath,
                                    validateBinarySecurity and
                                    findSecureBinaryPath are modelled from the
                                    specification (sections 4.2 and 4.3) and
                                    from the expectations recorded in
                                    binaryValidator.test.ts.

JavaScript values returned by JSON.parse are embedded as the inductive `Js`;
exceptions become `Except String` carrying the message of the thrown Error;
the child process and the filesystem are explicit parameters.
-/

namespace AppleEvents

/-! ## JavaScript values produced by JSON.parse -/

/-- A JSON value as returned by JSON.parse.  JSON.parse never produces
undefined; an absent property is represented as `none` at use sites. -/
inductive Js where
  | null
  | bool (b : Bool)
  | num (n : Int)
  | str (s : String)
  | arr (elems : List Js)
  | obj (fields : List (String × Js))

/-- Whether the value is the JS null value.  Property access on null throws a
TypeError in JavaScript; the executor model consults this guard where the
source performs a property access. -/
def Js.isNull : Js → Bool
  | .null => true
  | _ => false

/-- Assoc-list lookup used for property access on objects. -/
def lookupField : List (String × Js) → String → Option Js
  | [], _ => none
  | (k, v) :: rest, key => if k = key then some v else lookupField rest key

/-- Property access `v.key` for the keys used by the executor (status, message,
result).  On a non-object the access yields undefined (`none`); none of the
accessed keys collides with a prototype property of primitives or arrays.
Access on null is handled separately (it throws), see `parseCliOutput`. -/
def getProp (v : Js) (key : String) : Option Js :=
  match v with
  | .obj fields => lookupField fields key
  | _ => none

mutual

/-- The ECMAScript ToString conversion, as applied by the Error constructor to
a non-undefined, non-string message argument. -/
def jsToStringJS : Js → String
  | .null => "null"
  | .bool b => cond b "true" "false"
  | .num n => toString n
  | .str s => s
  | .obj _ => "[object Object]"
  | .arr elems => arrJoin elems

/-- Array.prototype.toString joins elements with commas; null elements print
as the empty string. -/
def arrJoin : List Js → String
  | [] => ""
  | [e] => arrElemStr e
  | e :: rest => arrElemStr e ++ "," ++ arrJoin rest

/-- How a single element prints inside Array.prototype.join. -/
def arrElemStr : Js → String
  | .null => ""
  | e => jsToStringJS e

end

/-- The message of `new Error(m)` where `m` is the (possibly undefined) value
of the message property: undefined gives the empty message, a string is taken
verbatim, anything else goes through ToString. -/
def errMessageOf : Option Js → String
  | none => ""
  | some (.str s) => s
  | some v => jsToStringJS v

/-- The strict-equality test comparing the status property of the parsed
value against the string literal success, from parseCliOutput: true exactly
when the status property is the string success. -/
def isSuccessStatus (v : Js) : Bool :=
  match getProp v "status" with
  | some (.str s) => s == "success"
  | _ => false

/-! ## Child process output (cliExecutor.ts) -/

/-- The stdout datum handed to bufferToString: a JS string, a Buffer (carried
here as its utf-8 decoding), or some other non-null value (carried as its
String() image).  `none` at use sites models null or undefined. -/
inductive StdoutData where
  | strD (s : String)
  | bufD (s : String)
  | otherD (s : String)
deriving DecidableEq

/-- cliExecutor.ts bufferToString: a string is returned as is, a Buffer is
decoded as utf-8, null and undefined give null, anything else is converted
with String(data). -/
def bufferToString : Option StdoutData → Option String
  | some (.strD s) => some s
  | some (.bufD s) => some s
  | none => none
  | some (.otherD s) => some s

/-- JavaScript truthiness of a string-or-null value, as used by the checks
`if (!normalized)` and `if (normalized)` in runCli. -/
def strTruthy : Option String → Bool
  | none => false
  | some s => !s.isEmpty

/-- cliExecutor.ts parseCliOutput.  `jsonParse` stands for the JSON.parse
builtin: `none` models a parse exception.  An `Except.error m` models a thrown
Error whose message is `m`.  When JSON.parse yields null, the property access
`parsed.status` throws a TypeError (message wording per V8); otherwise a
success envelope returns the result property as is (undefined when absent) and
anything else throws `new Error(parsed.message)`. -/
def parseCliOutput (jsonParse : String → Option Js) (output : String) :
    Except String (Option Js) :=
  match jsonParse output with
  | none => .error "EventKitCLI execution failed: Invalid CLI output"
  | some parsed =>
    if parsed.isNull then
      .error "Cannot read properties of null (reading \x27status\x27)"
    else if isSuccessStatus parsed then
      .ok (getProp parsed "result")
    else
      .error (errMessageOf (getProp parsed "message"))

/-- Outcome of one execFilePromise call.  `ok` models the callback receiving a
null error; `fail` models a rejection with an ExecFileException whose message
is `message` and onto which execFilePromise copied the callback stdout. -/
inductive SpawnResult where
  | ok (stdout : Option StdoutData)
  | fail (message : String) (stdout : Option StdoutData)

/-- cliExecutor.ts runCli over the outcome of its single execFilePromise call.

Resolved path: empty or null stdout throws Empty CLI output inside the try
block; that thrown Error (like any Error thrown by parseCliOutput there)
carries no stdout property, so the catch block falls through to the generic
re-wrap, prefixing the message with the subsystem banner a second time.

Rejected path: the catch block reads the stdout attached to the exception; a
truthy value is parsed exactly as in the try block and the parse outcome
(success, envelope error, or parse error) propagates unwrapped, otherwise the
rejection message is wrapped with the subsystem banner.  All rejected values
in this model are Error objects, so the `error instanceof Error` test of the
source always takes the message branch. -/
def runCli (jsonParse : String → Option Js) (spawn : SpawnResult) :
    Except String (Option Js) :=
  match spawn with
  | .ok stdout =>
    let normalized := bufferToString stdout
    let tryResult : Except String (Option Js) :=
      if strTruthy normalized then
        parseCliOutput jsonParse (normalized.getD "")
      else
        .error "EventKitCLI execution failed: Empty CLI output"
    match tryResult with
    | .ok v => .ok v
    | .error m => .error ("EventKitCLI execution failed: " ++ m)
  | .fail errMsg stdout =>
    let normalized := bufferToString stdout
    if strTruthy normalized then
      parseCliOutput jsonParse (normalized.getD "")
    else
      .error ("EventKitCLI execution failed: " ++ errMsg)

/-- cliExecutor.ts executeCli.  `lookupPath` is the path component of the
findSecureBinaryPath result and `possiblePaths` the candidate list used in the
not-found message.  `spawns` enumerates the outcomes of successive child
process invocations; the second component of the result counts how many child
processes the call spawned.  The source performs exactly one runCli call,
which awaits execFilePromise exactly once; the function body contains no retry
loop and no reference to triggerPermissionPrompt. -/
def executeCli (jsonParse : String → Option Js) (possiblePaths : List String)
    (lookupPath : Option String) (spawns : Nat → SpawnResult) :
    Except String (Option Js) × Nat :=
  match lookupPath with
  | none =>
    (.error ("EventKitCLI binary not found or validation failed. Searched: "
      ++ String.intercalate ", " possiblePaths), 0)
  | some _ => (runCli jsonParse (spawns 0), 1)

/-! ## helpers.ts -/

/-- helpers.ts addOptionalArg, functionally: the source pushes onto the args
array exactly when the value is not undefined. -/
def addOptionalArg (args : List String) (flag : String)
    (value : Option String) : List String :=
  match value with
  | some v => args ++ [flag, v]
  | none => args

/-! ## permissionPrompt.ts -/

/-- The two permission domains. -/
inductive PermissionDomain where
  | reminders
  | calendars
deriving DecidableEq

/-- The module level promptedDomains set. -/
structure PromptState where
  promptedDomains : List PermissionDomain
deriving DecidableEq

/-- permissionPrompt.ts hasBeenPrompted. -/
def hasBeenPrompted (st : PromptState) (d : PermissionDomain) : Bool :=
  st.promptedDomains.contains d

/-- promptedDomains.add(domain). -/
def markPrompted (st : PromptState) (d : PermissionDomain) : PromptState :=
  ⟨d :: st.promptedDomains⟩

/-- Result of one complete triggerPermissionPrompt call: the state it leaves,
whether it raised to its caller, and whether it ran the osascript probe. -/
structure TriggerOutcome where
  state : PromptState
  raised : Bool
  probed : Bool
deriving DecidableEq

/-- permissionPrompt.ts triggerPermissionPrompt (sequential semantics of one
complete call).  `probeSucceeds` is the outcome of the awaited osascript
probe.  Without force, an already prompted domain returns immediately;
otherwise the domain is added before the probe.  With force, the domain is
added after the probe, in both the success branch and the catch branch.  The
only await sits inside the try block with an empty catch, so the call never
raises: `raised` is false in every branch of the source. -/
def triggerPermissionPrompt (st : PromptState) (d : PermissionDomain)
    (force : Bool) (probeSucceeds : Bool) : TriggerOutcome :=
  if !force && hasBeenPrompted st d then
    ⟨st, false, false⟩
  else
    let st1 := if !force then markPrompted st d else st
    if probeSucceeds then
      ⟨if force then markPrompted st1 d else st1, false, true⟩
    else
      ⟨if force then markPrompted st1 d else st1, false, true⟩

/-- Shared state of the interleaving model for concurrent calls: the
promptedDomains set plus the ordered log of osascript probe invocations. -/
structure TriggerRace where
  prompted : List PermissionDomain
  probes : List PermissionDomain
deriving DecidableEq

/-- The synchronous prefix of a non-forced triggerPermissionPrompt call.
Under the run-to-completion semantics of the JavaScript event loop, the
memoization check, the promptedDomains.add and the start of the osascript
probe all execute before the first await suspends, with no interleaving
point between them.  The remainder of the call (after the await) neither
touches the set nor starts probes when force is unset, so a call start is the
only state transition of the race model. -/
def startTrigger (s : TriggerRace) (d : PermissionDomain) : TriggerRace :=
  if s.prompted.contains d then s
  else ⟨d :: s.prompted, s.probes ++ [d]⟩

/-- Any interleaving of non-forced trigger calls, identified by the order in
which their synchronous prefixes run, starting from the fresh module state. -/
def raceRun (ds : List PermissionDomain) : TriggerRace :=
  ds.foldl startTrigger ⟨[], []⟩

/-! ## binaryValidator.ts (modelled from the spec) -/

/-- Modelled from the spec: the ValidationConfig policy of the absent
binaryValidator.ts (spec section 3), with the field names used by
binaryValidator.test.ts.  Defaults per the test expectations: absolute paths
required, the standard allow list, a 50MB ceiling, no expected hash. -/
structure BinaryConfig where
  requireAbsolutePath : Bool
  allowedPaths : List String
  maxFileSize : Nat
  expectedHash : Option String
deriving DecidableEq

/-- The default configuration applied when validateBinaryPath is called
without options. -/
def defaultBinaryConfig : BinaryConfig :=
  ⟨true, ["/bin/", "/dist/swift/bin/", "/src/swift/bin/", "/swift/bin/"],
    50 * 1024 * 1024, none⟩

/-- Modelled from the spec: the typed error raised by the lower level
validator functions (a message plus a stable short code). -/
structure BinaryValidationError where
  message : String
  code : String
deriving DecidableEq

/-- An explicit filesystem, standing for the fs calls of the absent
binaryValidator.ts: existsSync, statSync isFile and size, accessSync with
X_OK (true when execute permission is granted), and the sha256 digest of the
file content (`none` when the read fails). -/
structure SimFileSystem where
  pathExists : String → Bool
  isFile : String → Bool
  fileSize : String → Nat
  isExecutable : String → Bool
  hashOf : String → Option String

/-- Whether the second string starts with the first (the slash test of
path.posix.isAbsolute when the first string is a single slash). -/
def strStartsWith (pre s : String) : Bool :=
  pre.data.isPrefixOf s.data

/-- Whether the second string ends with the first (the trailing separator
test of path.posix.normalize). -/
def strEndsWith (suf s : String) : Bool :=
  suf.data.reverse.isPrefixOf s.data.reverse

/-- Split a character list on the slash separator, producing the segment
list path.posix.normalize walks over. -/
def splitOnSlash : List Char → List String
  | [] => [""]
  | c :: rest =>
    let r := splitOnSlash rest
    if c = '/' then "" :: r
    else
      match r with
      | [] => [String.mk [c]]
      | seg :: segs => String.mk (c :: seg.data) :: segs

/-- Join segments with the slash separator. -/
def joinSegs : List String → String
  | [] => ""
  | [seg] => seg
  | seg :: rest => seg ++ "/" ++ joinSegs rest

/-- One step of Node path.posix.normalize: resolve empty, dot and dotdot
segments.  `allowAboveRoot` is true for relative paths, where leading dotdot
segments are kept; on absolute paths dotdot at the root is dropped. -/
def normSegs (allowAboveRoot : Bool) (acc : List String) :
    List String → List String
  | [] => acc.reverse
  | seg :: rest =>
    if seg = "" || seg = "." then
      normSegs allowAboveRoot acc rest
    else if seg = ".." then
      match acc with
      | [] =>
        if allowAboveRoot then normSegs allowAboveRoot [".."] rest
        else normSegs allowAboveRoot [] rest
      | top :: tl =>
        if top = ".." then normSegs allowAboveRoot (".." :: acc) rest
        else normSegs allowAboveRoot tl rest
    else
      normSegs allowAboveRoot (seg :: acc) rest

/-- Node path.posix.normalize: resolves dot and dotdot segments, collapses
separators, preserves a trailing separator, returns a dot for an empty
relative result and a slash for an empty absolute result. -/
def posixNormalize (p : String) : String :=
  if p = "" then "."
  else
    let isAbs := strStartsWith "/" p
    let trailing := strEndsWith "/" p
    let core := joinSegs (normSegs (!isAbs) [] (splitOnSlash p.data))
    if core = "" then
      if isAbs then "/" else if trailing then "./" else "."
    else
      let withTrail := if trailing then core ++ "/" else core
      if isAbs then "/" ++ withTrail else withTrail

/-- Whether the needle occurs as a contiguous run at some position of the
haystack. -/
def strContainsAux (needle : List Char) : List Char → Bool
  | [] => needle.isEmpty
  | c :: rest => needle.isPrefixOf (c :: rest) || strContainsAux needle rest

/-- String.prototype.includes: substring containment. -/
def strContains (hay needle : String) : Bool :=
  strContainsAux needle.data hay.data

/-- Modelled from the spec: validateBinaryPath of the absent
binaryValidator.ts, following the gate order of spec section 4.2 and the
messages asserted by binaryValidator.test.ts.  Gates, each aborting with its
code: absoluteness, allow-list containment of the normalized path, existence,
regular file, size bound, executability.  Filesystem checks run against the
normalized path (binaryValidator.test.ts mocks existsSync for the normalized
form of an input containing dotdot segments and expects success). -/
def validateBinaryPath (fs : SimFileSystem) (binaryPath : String)
    (config : BinaryConfig) : Except BinaryValidationError Unit :=
  if config.requireAbsolutePath && !(strStartsWith "/" binaryPath) then
    .error ⟨"Binary path must be absolute", "INVALID_PATH"⟩
  else
    let normalized := posixNormalize binaryPath
    if !(config.allowedPaths.any fun frag => strContains normalized frag) then
      .error ⟨"Binary path not in allowed directories", "PATH_NOT_ALLOWED"⟩
    else if !(fs.pathExists normalized) then
      .error ⟨"Binary file not found", "FILE_NOT_FOUND"⟩
    else if !(fs.isFile normalized) then
      .error ⟨"Binary path does not point to a file", "NOT_A_FILE"⟩
    else if fs.fileSize normalized > config.maxFileSize then
      .error ⟨"Binary file too large", "FILE_TOO_LARGE"⟩
    else if !(fs.isExecutable normalized) then
      .error ⟨"Binary file is not executable", "NOT_EXECUTABLE"⟩
    else
      .ok ()

/-- Modelled from the spec: calculateBinaryHash reads the file and digests it,
wrapping a read failure as HASH_COMPUTE_FAILED. -/
def calculateBinaryHash (fs : SimFileSystem) (binaryPath : String) :
    Except BinaryValidationError String :=
  match fs.hashOf binaryPath with
  | some h => .ok h
  | none => .error ⟨"Failed to calculate binary hash", "HASH_COMPUTE_FAILED"⟩

/-- Modelled from the spec: validateBinaryIntegrity compares the computed hash
with the expected one and returns false, never raising, on any failure. -/
def validateBinaryIntegrity (fs : SimFileSystem) (binaryPath : String)
    (expectedHash : String) : Bool :=
  match calculateBinaryHash fs binaryPath with
  | .ok h => h == expectedHash
  | .error _ => false

/-- The ValidationResult record returned by validateBinarySecurity. -/
structure ValidationResult where
  isValid : Bool
  errors : List String
  hash : Option String
deriving DecidableEq

/-- Modelled from the spec: validateBinarySecurity, the only non-raising entry
point.  It runs validateBinaryPath, converts a raised validation error into an
invalid result carrying the code-prefixed message, computes and records the
content hash on success, and when an expected hash is configured and the
integrity check fails it marks the result invalid with the mismatch message
asserted by binaryValidator.test.ts. -/
def validateBinarySecurity (fs : SimFileSystem) (binaryPath : String)
    (config : BinaryConfig) : ValidationResult :=
  match validateBinaryPath fs binaryPath config with
  | .error e => ⟨false, [e.code ++ ": " ++ e.message], none⟩
  | .ok _ =>
    match calculateBinaryHash fs binaryPath with
    | .error e => ⟨false, [e.code ++ ": " ++ e.message], none⟩
    | .ok h =>
      match config.expectedHash with
      | some expected =>
        if validateBinaryIntegrity fs binaryPath expected then
          ⟨true, [], some h⟩
        else
          ⟨false, ["Binary integrity check failed - hash mismatch"], some h⟩
      | none => ⟨true, [], some h⟩

/-- The SecureBinaryLookup record returned by findSecureBinaryPath. -/
structure SecureBinaryLookup where
  path : Option String
  validationResult : Option ValidationResult
deriving DecidableEq

/-- Modelled from the spec: findSecureBinaryPath scans the candidates in
order, returns the first one whose validateBinarySecurity result is valid
together with that result, and yields a null path with no validation result
when no candidate validates or the list is empty. -/
def findSecureBinaryPath (fs : SimFileSystem) (config : BinaryConfig) :
    List String → SecureBinaryLookup
  | [] => ⟨none, none⟩
  | p :: rest =>
    let r := validateBinarySecurity fs p config
    if r.isValid then ⟨some p, some r⟩
    else findSecureBinaryPath fs config rest

/-- The ordered sequence of candidates on which findSecureBinaryPath invokes
validateBinarySecurity: one invocation per loop iteration, stopping at the
first valid candidate. -/
def findSecureBinaryPathTrace (fs : SimFileSystem) (config : BinaryConfig) :
    List String → List String
  | [] => []
  | p :: rest =>
    let r := validateBinarySecurity fs p config
    if r.isValid then [p]
    else p :: findSecureBinaryPathTrace fs config rest

/-! ## Concrete scenarios used by witnesses and counterexamples -/

/-- A filesystem on which nothing exists and nothing is readable. -/
def fsDeny : SimFileSystem :=
  ⟨fun _ => false, fun _ => false, fun _ => 0, fun _ => false, fun _ => none⟩

/-- The error envelope printed by the child process in the retry scenario of
cliExecutor.test.ts (the retries-after-triggering-reminder-prompt test). -/
def permissionErrorJs : Js :=
  .obj [("status", .str "error"),
        ("message", .str "Reminder permission denied or restricted.")]

/-- The success envelope returned by the second child process invocation of
the same test. -/
def retrySuccessJs : Js :=
  .obj [("status", .str "success"), ("result", .obj [("ok", .bool true)])]

/-- JSON.parse restricted to the two stdout texts of the retry scenario; the
raw stdout characters are abstracted by markers. -/
def jpRetryScenario (s : String) : Option Js :=
  if s = "PERMISSION_ERROR_STDOUT" then some permissionErrorJs
  else if s = "SUCCESS_STDOUT" then some retrySuccessJs
  else none

/-- The child process outcomes of the retry scenario: the first invocation
rejects (nonzero exit) with the permission error envelope on stdout, and any
further invocation would succeed with the success envelope. -/
def retrySpawns : Nat → SpawnResult
  | 0 => .fail "Command failed" (some (.strD "PERMISSION_ERROR_STDOUT"))
  | _ + 1 => .ok (some (.strD "SUCCESS_STDOUT"))

/-- JSON.parse on the four-character stdout text null, which parses to the JS
null value. -/
def jpNullOnly (s : String) : Option Js :=
  if s = "null" then some Js.null else none

/-- JSON.parse for a stdout that parses to an object matching neither
envelope shape: no status and no message property. -/
def jpShapeless (s : String) : Option Js :=
  if s = "SHAPELESS_STDOUT" then some (.obj [("foo", .num 1)]) else none

/-- JSON.parse for an error envelope and a success envelope, used to witness
the exit-code-versus-envelope theorem. -/
def jpEnvelopes (s : String) : Option Js :=
  if s = "ERR_STDOUT" then
    some (.obj [("status", .str "error"),
                ("message", .str "Reminder permission denied.")])
  else if s = "OK_STDOUT" then
    some (.obj [("status", .str "success"), ("result", .num 7)])
  else none

/-! ## Helper lemmas -/

theorem getProp_isNull_false {v : Js} {k : String} {u : Js}
    (h : getProp v k = some u) : v.isNull = false := by
  cases v <;> simp_all [getProp, Js.isNull]

theorem errMessageOf_str (m : String) : errMessageOf (some (.str m)) = m := rfl

theorem isSuccessStatus_true_of_status {v : Js}
    (h : getProp v "status" = some (.str "success")) :
    isSuccessStatus v = true := by
  unfold isSuccessStatus
  rw [h]
  decide

theorem isSuccessStatus_false_of_status_error {v : Js}
    (h : getProp v "status" = some (.str "error")) :
    isSuccessStatus v = false := by
  unfold isSuccessStatus
  rw [h]
  decide

theorem parseCliOutput_not_success {jp : String → Option Js} {s : String}
    {v : Js} (hparse : jp s = some v) (hnn : v.isNull = false)
    (hstatus : isSuccessStatus v = false) :
    parseCliOutput jp s = .error (errMessageOf (getProp v "message")) := by
  unfold parseCliOutput
  rw [hparse]
  simp [hnn, hstatus]

theorem parseCliOutput_success {jp : String → Option Js} {s : String}
    {v : Js} (hparse : jp s = some v) (hnn : v.isNull = false)
    (hstatus : isSuccessStatus v = true) :
    parseCliOutput jp s = .ok (getProp v "result") := by
  unfold parseCliOutput
  rw [hparse]
  simp [hnn, hstatus]

theorem runCli_fail_with_stdout (jp : String → Option Js) (errMsg : String)
    (stdout : Option StdoutData) (s : String)
    (hstdout : bufferToString stdout = some s) (hne : s.isEmpty = false) :
    runCli jp (.fail errMsg stdout) = parseCliOutput jp s := by
  rw [show runCli jp (.fail errMsg stdout)
      = if strTruthy (bufferToString stdout) then
          parseCliOutput jp ((bufferToString stdout).getD "")
        else .error ("EventKitCLI execution failed: " ++ errMsg) from rfl,
    hstdout]
  simp [strTruthy, hne]

/-! ## Claim theorems -/

/-- C9: addOptionalArg appends the pair of flag and value exactly when the
value is defined: an undefined value leaves the argument vector unchanged,
while any defined value, the empty string included, is appended as the pair
flag then value. -/
theorem addOptionalArg_appends_iff_defined (args : List String)
    (flag : String) :
    addOptionalArg args flag none = args ∧
    (∀ v : String, addOptionalArg args flag (some v) = args ++ [flag, v]) ∧
    addOptionalArg args flag (some "") = args ++ [flag, ""] :=
  ⟨rfl, fun _ => rfl, rfl⟩

/-- C1 (code bug evidence): in the retry scenario of cliExecutor.test.ts
(first child invocation exits nonzero with a reminder permission error
envelope on stdout, every later invocation would succeed), executeCli as
implemented spawns exactly one child process and propagates the original
permission error; no permission prompt is triggered and no retry happens,
although the second invocation would have produced the success result the
test expects.  cliExecutor.ts contains no reference to
triggerPermissionPrompt at all. -/
theorem executeCli_no_permission_retry :
    executeCli jpRetryScenario ["/test/project/bin/EventKitCLI"]
        (some "/test/project/bin/EventKitCLI") retrySpawns
      = (.error "Reminder permission denied or restricted.", 1) ∧
    runCli jpRetryScenario (retrySpawns 1)
      = .ok (some (.obj [("ok", .bool true)])) :=
  ⟨rfl, rfl⟩

/-- C8: when the child process completes and its stdout is the empty string
or null, executeCli raises the Empty CLI output error (re-wrapped once more
by the generic catch, which sees a thrown Error without a stdout property)
and never attempts to JSON-parse the output: the result is the same for
every possible JSON.parse function. -/
theorem executeCli_empty_stdout_error (jp : String → Option Js)
    (possiblePaths : List String) (cliPath : String)
    (spawns : Nat → SpawnResult) (stdout : Option StdoutData)
    (hspawn : spawns 0 = .ok stdout)
    (hempty : stdout = none ∨ stdout = some (.strD "")) :
    executeCli jp possiblePaths (some cliPath) spawns
      = (.error ("EventKitCLI execution failed: "
          ++ "EventKitCLI execution failed: Empty CLI output"), 1) ∧
    strContains
      "EventKitCLI execution failed: EventKitCLI execution failed: Empty CLI output"
      "Empty CLI output" = true := by
  constructor
  · rw [show executeCli jp possiblePaths (some cliPath) spawns
        = (runCli jp (spawns 0), 1) from rfl, hspawn]
    rcases hempty with h | h <;> subst h <;> rfl
  · rfl

theorem executeCli_empty_stdout_error_witness :
    executeCli (fun _ => none) [] (some "/x") (fun _ => .ok none)
      = (.error ("EventKitCLI execution failed: "
          ++ "EventKitCLI execution failed: Empty CLI output"), 1) :=
  (executeCli_empty_stdout_error (fun _ => none) [] "/x" (fun _ => .ok none)
    none rfl (Or.inl rfl)).1

/-- C3: when the child process reports failure but still produced stdout that
JSON-parses as the error envelope with message m, executeCli raises exactly m
with no generic spawn-failure wrapping, whatever the process error message
was; when that stdout parses as a success envelope instead, executeCli
returns its result property. -/
theorem executeCli_envelope_authoritative_over_exit_code
    (jp : String → Option Js) (possiblePaths : List String) (cliPath : String)
    (spawns : Nat → SpawnResult) (errMsg : String) (stdout : Option StdoutData)
    (s : String) (v : Js)
    (hspawn : spawns 0 = .fail errMsg stdout)
    (hstdout : bufferToString stdout = some s) (hne : s.isEmpty = false)
    (hparse : jp s = some v) :
    (∀ m : String, getProp v "status" = some (.str "error") →
        getProp v "message" = some (.str m) →
        executeCli jp possiblePaths (some cliPath) spawns = (.error m, 1)) ∧
    (getProp v "status" = some (.str "success") →
        executeCli jp possiblePaths (some cliPath) spawns
          = (.ok (getProp v "result"), 1)) := by
  have hexec : executeCli jp possiblePaths (some cliPath) spawns
      = (runCli jp (spawns 0), 1) := rfl
  rw [hexec, hspawn]
  constructor
  · intro m hstatus hmsg
    rw [runCli_fail_with_stdout jp errMsg stdout s hstdout hne,
      parseCliOutput_not_success hparse (getProp_isNull_false hstatus)
        (isSuccessStatus_false_of_status_error hstatus), hmsg,
      errMessageOf_str]
  · intro hstatus
    rw [runCli_fail_with_stdout jp errMsg stdout s hstdout hne,
      parseCliOutput_success hparse (getProp_isNull_false hstatus)
        (isSuccessStatus_true_of_status hstatus)]

theorem executeCli_envelope_authoritative_witness :
    executeCli jpEnvelopes [] (some "/p")
        (fun _ => .fail "Command failed" (some (.strD "ERR_STDOUT")))
      = (.error "Reminder permission denied.", 1) ∧
    executeCli jpEnvelopes [] (some "/p")
        (fun _ => .fail "Command failed" (some (.bufD "OK_STDOUT")))
      = (.ok (some (.num 7)), 1) :=
  ⟨(executeCli_envelope_authoritative_over_exit_code jpEnvelopes [] "/p"
      (fun _ => .fail "Command failed" (some (.strD "ERR_STDOUT")))
      "Command failed" (some (.strD "ERR_STDOUT")) "ERR_STDOUT"
      (.obj [("status", .str "error"),
             ("message", .str "Reminder permission denied.")])
      rfl rfl rfl rfl).1 "Reminder permission denied." rfl rfl,
   (executeCli_envelope_authoritative_over_exit_code jpEnvelopes [] "/p"
      (fun _ => .fail "Command failed" (some (.bufD "OK_STDOUT")))
      "Command failed" (some (.bufD "OK_STDOUT")) "OK_STDOUT"
      (.obj [("status", .str "success"), ("result", .num 7)])
      rfl rfl rfl rfl).2 rfl⟩

/-- C10 counterexample: the stdout text null is JSON-parseable, but the
executor then performs the property access on the parsed null value and
throws a TypeError, not an Error constructed from the message property
(which, being absent, would have given the empty message). -/
theorem parseCliOutput_null_stdout_type_error :
    jpNullOnly "null" = some Js.null ∧
    parseCliOutput jpNullOnly "null"
      = .error "Cannot read properties of null (reading \x27status\x27)" ∧
    errMessageOf (getProp Js.null "message") = "" ∧
    ("Cannot read properties of null (reading \x27status\x27)" : String)
      ≠ "" := by
  refine ⟨rfl, rfl, rfl, ?_⟩
  decide

/-- C10 (amended): parseCliOutput performs no envelope-shape validation
beyond JSON.parse and a null guard is absent: for every JSON-parseable
stdout whose parsed value is not null, a status property that is anything
other than the string success makes it throw an Error constructed from the
message property (absent message giving the empty message, per
errMessageOf), while a success status returns the result property as is,
with no further checks. -/
theorem parseCliOutput_no_shape_validation (jp : String → Option Js)
    (s : String) (v : Js) (hparse : jp s = some v) (hnn : v.isNull = false) :
    (isSuccessStatus v = false →
       parseCliOutput jp s = .error (errMessageOf (getProp v "message"))) ∧
    (isSuccessStatus v = true →
       parseCliOutput jp s = .ok (getProp v "result")) :=
  ⟨fun h => parseCliOutput_not_success hparse hnn h,
   fun h => parseCliOutput_success hparse hnn h⟩

theorem parseCliOutput_no_shape_validation_witness :
    parseCliOutput jpShapeless "SHAPELESS_STDOUT" = .error "" :=
  (parseCliOutput_no_shape_validation jpShapeless "SHAPELESS_STDOUT"
    (.obj [("foo", .num 1)]) rfl rfl).1 rfl

/-- C2 counterexample: a relative path whose normalized form contains no
allow-listed fragment is rejected by the absoluteness gate, which runs
first, so the failure carries INVALID_PATH rather than the claimed
PATH_NOT_ALLOWED. -/
theorem validateBinaryPath_relative_path_counterexample :
    (defaultBinaryConfig.allowedPaths.any fun frag =>
        strContains (posixNormalize "etc/passwd") frag) = false ∧
    validateBinaryPath fsDeny "etc/passwd" defaultBinaryConfig
      = .error ⟨"Binary path must be absolute", "INVALID_PATH"⟩ ∧
    validateBinaryPath fsDeny "etc/passwd" defaultBinaryConfig
      ≠ .error ⟨"Binary path not in allowed directories",
                "PATH_NOT_ALLOWED"⟩ := by
  refine ⟨by decide, rfl, ?_⟩
  intro h
  rw [show validateBinaryPath fsDeny "etc/passwd" defaultBinaryConfig
      = .error ⟨"Binary path must be absolute", "INVALID_PATH"⟩ from rfl] at h
  have h2 := Except.error.inj h
  exact absurd h2 (by decide)

/-- C2 (amended): for every path that passes the absoluteness gate (the
configuration does not require absolute paths, or the path is absolute),
if the normalized form of the path contains none of the configured allowed
fragments as a substring, validateBinaryPath fails with the PATH_NOT_ALLOWED
error, whatever the filesystem contents; in particular raw paths that
superficially contain an allowed fragment but whose dotdot segments
normalize elsewhere are rejected. -/
theorem validateBinaryPath_normalized_containment (fs : SimFileSystem)
    (p : String) (config : BinaryConfig)
    (habs : config.requireAbsolutePath = false ∨ strStartsWith "/" p = true)
    (hfrag : (config.allowedPaths.any fun frag =>
        strContains (posixNormalize p) frag) = false) :
    validateBinaryPath fs p config
      = .error ⟨"Binary path not in allowed directories",
                "PATH_NOT_ALLOWED"⟩ := by
  have h1 : (config.requireAbsolutePath && !(strStartsWith "/" p)) = false := by
    rcases habs with h | h <;> simp [h]
  unfold validateBinaryPath
  rw [h1]
  simp [hfrag]

theorem validateBinaryPath_normalized_containment_witness :
    validateBinaryPath fsDeny "/project/bin/../../../etc/passwd"
        defaultBinaryConfig
      = .error ⟨"Binary path not in allowed directories",
                "PATH_NOT_ALLOWED"⟩ :=
  validateBinaryPath_normalized_containment fsDeny
    "/project/bin/../../../etc/passwd" defaultBinaryConfig
    (Or.inr rfl) (by decide)

/-- C4: findSecureBinaryPath selects exactly the first candidate, in list
order, whose validateBinarySecurity result is valid, and the sequence of
candidates on which validation is invoked is the order prefix up to and
including that first success, so no candidate positioned after the first
success is ever validated. -/
theorem findSecureBinaryPath_first_match_short_circuit (fs : SimFileSystem)
    (config : BinaryConfig) (paths : List String) :
    (findSecureBinaryPath fs config paths).path
      = paths.find? (fun p => (validateBinarySecurity fs p config).isValid) ∧
    findSecureBinaryPathTrace fs config paths
      = paths.takeWhile
          (fun p => !(validateBinarySecurity fs p config).isValid)
        ++ (paths.dropWhile
          (fun p => !(validateBinarySecurity fs p config).isValid)).take 1 := by
  induction paths with
  | nil => exact ⟨rfl, rfl⟩
  | cons p rest ih =>
    by_cases h : (validateBinarySecurity fs p config).isValid = true
    · constructor
      · simp [findSecureBinaryPath, h, List.find?_cons]
      · simp [findSecureBinaryPathTrace, h, List.takeWhile_cons,
          List.dropWhile_cons]
    · have hb : (validateBinarySecurity fs p config).isValid = false := by
        simpa using h
      constructor
      · simp [findSecureBinaryPath, hb, List.find?_cons, ih.1]
      · simp [findSecureBinaryPathTrace, hb, List.takeWhile_cons,
          List.dropWhile_cons, ih.2]

/-- C5: the lookup invariant of findSecureBinaryPath: a selected path is
non-null only when validateBinarySecurity reported it valid, and when the
candidate list is empty or no candidate validates the result is a null path
with no validation result recorded. -/
theorem findSecureBinaryPath_selection_invariant (fs : SimFileSystem)
    (config : BinaryConfig) (paths : List String) :
    (∀ p, (findSecureBinaryPath fs config paths).path = some p →
        (validateBinarySecurity fs p config).isValid = true) ∧
    ((∀ p ∈ paths, (validateBinarySecurity fs p config).isValid = false) →
        findSecureBinaryPath fs config paths = ⟨none, none⟩) := by
  induction paths with
  | nil =>
    exact ⟨fun p h => by simp [findSecureBinaryPath] at h, fun _ => rfl⟩
  | cons q rest ih =>
    by_cases h : (validateBinarySecurity fs q config).isValid = true
    · constructor
      · intro p hp
        simp [findSecureBinaryPath, h] at hp
        rw [← hp]
        exact h
      · intro hall
        exact absurd (hall q (by simp)) (by simp [h])
    · have hb : (validateBinarySecurity fs q config).isValid = false := by
        simpa using h
      have hstep : findSecureBinaryPath fs config (q :: rest)
          = findSecureBinaryPath fs config rest := by
        simp [findSecureBinaryPath, hb]
      constructor
      · intro p hp
        rw [hstep] at hp
        exact ih.1 p hp
      · intro hall
        rw [hstep]
        exact ih.2 fun p hp => hall p (List.mem_cons_of_mem _ hp)

theorem findSecureBinaryPath_selection_invariant_witness :
    (validateBinarySecurity fsDeny "/bin/x" defaultBinaryConfig).isValid
      = false ∧
    findSecureBinaryPath fsDeny defaultBinaryConfig ["/bin/x"]
      = ⟨none, none⟩ := by
  refine ⟨by decide, ?_⟩
  exact (findSecureBinaryPath_selection_invariant fsDeny defaultBinaryConfig
    ["/bin/x"]).2 (by
      intro p hp
      simp at hp
      subst hp
      decide)

/-- C6: a complete triggerPermissionPrompt call never raises to its caller
(the single await sits in a try block whose catch swallows everything), and
once the call completes the domain reports as prompted whether the osascript
probe succeeded or failed, and whether or not force was set. -/
theorem triggerPermissionPrompt_never_raises_marks_prompted
    (st : PromptState) (d : PermissionDomain) (force probeSucceeds : Bool) :
    (triggerPermissionPrompt st d force probeSucceeds).raised = false ∧
    hasBeenPrompted
      (triggerPermissionPrompt st d force probeSucceeds).state d = true := by
  cases force <;> cases probeSucceeds <;>
    by_cases h : d ∈ st.promptedDomains <;>
    simp [triggerPermissionPrompt, hasBeenPrompted, markPrompted, h]

theorem startTrigger_prompted_mem (s : TriggerRace)
    (a d : PermissionDomain) :
    d ∈ (startTrigger s a).prompted ↔ (d ∈ s.prompted ∨ d = a) := by
  by_cases ha : a ∈ s.prompted <;> by_cases hd : d = a <;>
    first
    | (subst hd; simp [startTrigger, ha])
    | simp [startTrigger, ha, hd]

theorem race_invariant (ds : List PermissionDomain) (s : TriggerRace)
    (hinv : ∀ d, s.probes.count d = if d ∈ s.prompted then 1 else 0) :
    ∀ d, (ds.foldl startTrigger s).probes.count d
      = if d ∈ (ds.foldl startTrigger s).prompted then 1 else 0 := by
  induction ds generalizing s with
  | nil => exact hinv
  | cons a rest ih =>
    intro d
    rw [List.foldl_cons]
    refine ih (startTrigger s a) ?_ d
    intro e
    by_cases ha : a ∈ s.prompted
    · simpa [startTrigger, ha] using hinv e
    · by_cases he : e = a
      · subst he
        have h0 : s.probes.count e = 0 := by
          rw [hinv e]
          simp [ha]
        simp [startTrigger, ha, List.count_append, List.count_cons,
          List.count_nil, h0]
      · have hae : (a == e) = false := by
          simp [Ne.symm he]
        simp [startTrigger, ha, List.count_append, List.count_cons,
          List.count_nil, hae, he, hinv e]

theorem raceRun_prompted_mem (ds : List PermissionDomain) (s : TriggerRace)
    (d : PermissionDomain) :
    d ∈ (ds.foldl startTrigger s).prompted ↔ (d ∈ s.prompted ∨ d ∈ ds) := by
  induction ds generalizing s with
  | nil => simp
  | cons a rest ih =>
    rw [List.foldl_cons, ih, startTrigger_prompted_mem]
    by_cases hd : d = a <;> simp [hd]

/-- C7: in any interleaving of non-forced triggerPermissionPrompt calls
started from a fresh process state, each domain that occurs among the calls
gets exactly one underlying osascript probe, no matter how many concurrent
calls name it or in which order their synchronous prefixes run, and a domain
that is never requested is never probed; in particular calls for different
domains are not deduplicated against each other. -/
theorem trigger_race_single_probe_per_domain (ds : List PermissionDomain)
    (d : PermissionDomain) :
    (raceRun ds).probes.count d = if d ∈ ds then 1 else 0 := by
  have h1 := race_invariant ds ⟨[], []⟩ (by intro e; simp) d
  rw [raceRun, h1]
  by_cases hd : d ∈ ds <;> simp [raceRun_prompted_mem, hd]

end AppleEvents
